import Mathlib

/-!
Shallow embedding of `app.py` (Stack Overflow tag chart pipeline).

The pipeline is: CSV aggregation (`process_csv`, lines 34-159), growth
synthesis (`generate_growth_pattern`, lines 11-32) and the HTTP route
handler (`get_data`, lines 165-173).

Modelling conventions:
  * Python floats are idealised as real numbers; `int(x)` is truncation
    toward zero (`pyInt`), `round(x, 2)` is rounding to two decimals
    (`round2`, using Mathlib's `round`, i.e. half-up; Python uses
    half-to-even, which differs only at exact midpoints).
  * The random draws of `random.uniform` are passed in as an explicit
    stream `u : ℕ → ℝ` (one draw per period); `drawsValid` states that
    the draws lie in the interval the code samples from.
  * A CSV data row is modelled by its `Tag` field as produced by
    `csv.DictReader`: `some s` when the field is present, `none` when the
    row is short so the reader fills the field with Python `None`.
  * Python dicts preserve insertion order, so the tag tally is an
    insertion-ordered association list with unique keys.
  * `sorted(..., key=k, reverse=True)` / `list.sort(key=k, reverse=True)`
    are Python's stable descending sort; `sortDescBy` is a stable
    insertion sort with the same key, hence extensionally the same
    function (a stable sort is unique).
-/

namespace StackChart

/-- Python `int()` applied to a real value: truncation toward zero. -/
noncomputable def pyInt (x : ℝ) : ℤ :=
  if x < 0 then Int.ceil x else Int.floor x

/-- Python `round(x, 2)`: round to two decimal places. -/
noncomputable def round2 (x : ℝ) : ℝ :=
  ((round (x * 100) : ℤ) : ℝ) / 100

/-- `generate_growth_pattern(base_count, years)` from `app.py` lines 11-32.
`u i` is the value drawn by `random.uniform` in iteration `i`; the `years`
argument is kept to mirror the Python signature. -/
noncomputable def generate_growth_pattern (base_count : ℕ) (years : List ℕ)
    (u : ℕ → ℝ) : List ℤ :=
  if base_count > 1500 then
    (List.range 3).map (fun (i : ℕ) =>
      pyInt ((base_count : ℝ) * (0.4 + Real.log ((i : ℝ) + 2) * 0.3) * u i))
  else if base_count > 800 then
    (List.range 3).map (fun (i : ℕ) =>
      pyInt ((base_count : ℝ) * (0.4 + (i : ℝ) * 0.18 + u i)))
  else
    (List.range 3).map (fun (i : ℕ) =>
      pyInt ((base_count : ℝ) * (0.4 + (i : ℝ) * 0.15 + u i)))

/-- The random draws consumed by `generate_growth_pattern` lie in the
interval that the corresponding tier samples from with `random.uniform`. -/
def drawsValid (base_count : ℕ) (u : ℕ → ℝ) : Prop :=
  if base_count > 1500 then ∀ i, i < 3 → 0.95 ≤ u i ∧ u i ≤ 1.05
  else if base_count > 800 then ∀ i, i < 3 → -0.05 ≤ u i ∧ u i ≤ 0.05
  else ∀ i, i < 3 → -0.1 ≤ u i ∧ u i ≤ 0.15

/-- Exceptions that can arise while reading a row's `Tag` field. -/
inductive PyExc : Type
  | attrError
  | valueError
  | keyError
deriving DecidableEq

/-- The message text `str(e)` of an exception. -/
def pyExcMsg : PyExc → String
  | .attrError => "NoneType object has no attribute strip"
  | .valueError => "ValueError"
  | .keyError => "KeyError"

/-- The row-level handler `except (ValueError, KeyError)` at line 70 of
`app.py`: which exceptions it catches. -/
def caughtByRowHandler : PyExc → Bool
  | .valueError => true
  | .keyError => true
  | .attrError => false

/-- Python `str.strip()`: remove leading and trailing whitespace. -/
def pyStrip (s : String) : String :=
  String.mk (((s.data.dropWhile Char.isWhitespace).reverse.dropWhile
    Char.isWhitespace).reverse)

/-- `row['Tag'].strip()`: reading and stripping the tag field of one row.
When `DictReader` filled the field with `None` (short row), `.strip()`
raises `AttributeError`. -/
def rowTag : Option String → Except PyExc String
  | some s => Except.ok (pyStrip s)
  | none => Except.error PyExc.attrError

/-- The mutable state of the aggregation loop in `process_csv`:
the tag tally (insertion-ordered, as a Python dict) and the two
row counters. -/
structure AggState : Type where
  tagCounts : List (String × ℕ)
  totalRows : ℕ
  processedRows : ℕ
deriving DecidableEq

/-- `tag_counts[tag] += 1` on a `defaultdict(int)`: increment in place if
the key exists, else append the key with count 1. -/
def bump : List (String × ℕ) → String → List (String × ℕ)
  | [], t => [(t, 1)]
  | (s, c) :: rest, t =>
    if s = t then (s, c + 1) :: rest else (s, c) :: bump rest t

/-- The row loop of `process_csv` (lines 62-72): every row increments
`total_rows`; a readable non-empty trimmed tag is tallied and counted in
`processed_rows`; `ValueError`/`KeyError` are caught and skip the row;
any other exception propagates out of the loop. -/
def processRows : AggState → List (Option String) → Except PyExc AggState
  | st, [] => Except.ok st
  | st, r :: rs =>
    let st1 : AggState :=
      { st with totalRows := st.totalRows + 1 }
    match rowTag r with
    | Except.ok tag =>
      if tag ≠ "" then
        processRows
          { st1 with tagCounts := bump st1.tagCounts tag,
                     processedRows := st1.processedRows + 1 } rs
      else
        processRows st1 rs
    | Except.error e =>
      if caughtByRowHandler e then processRows st1 rs else Except.error e

/-- Stable insertion into a descending-by-key list: the new element goes
before the first element whose key is not greater, so an element earlier
in the input stays before later elements with an equal key. -/
def insertDescBy {α β : Type} [LinearOrder β] (key : α → β) (x : α) :
    List α → List α
  | [] => [x]
  | y :: ys =>
    if key x < key y then y :: insertDescBy key x ys else x :: y :: ys

/-- Stable descending sort by a key: extensionally Python
`sorted(l, key=key, reverse=True)`. -/
def sortDescBy {α β : Type} [LinearOrder β] (key : α → β) :
    List α → List α
  | [] => []
  | x :: xs => insertDescBy key x (sortDescBy key xs)

/-- Lines 86-87 of `app.py`: the top-10 tag selection
`sorted(tag_counts.items(), key=lambda x: x[1], reverse=True)[:10]`. -/
def topTags (tally : List (String × ℕ)) : List (String × ℕ) :=
  (sortDescBy Prod.snd tally).take 10

/-- `years = list(range(2023, 2026))` (line 90). -/
def pipelineYears : List ℕ :=
  (List.range 3).map (fun i => 2023 + i)

/-- One entry of the `tags` list of the JSON payload. -/
structure TagSeries : Type where
  name : String
  data : List ℝ
  average : ℝ

/-- The successful JSON payload of `process_csv` (lines 149-159),
metadata flattened. `total_questions` is listed in year order
2023, 2024, 2025. -/
structure Report : Type where
  years : List ℕ
  tags : List TagSeries
  total_questions : List ℤ
  total_rows : ℕ
  processed_rows : ℕ
  unique_tags : ℕ
  top_tags_count : ℕ

/-- The value returned by `process_csv`: either an error dict
`\x7b'error': msg\x7d` or the report payload. -/
inductive Result : Type
  | error (msg : String)
  | ok (report : Report)

/-- The synthetic series of the top tags, in top-tag order: the loop at
lines 94-97 calls `generate_growth_pattern` once per top tag, the `k`-th
call consuming the draw stream `u k`. -/
noncomputable def tagSeries (st : AggState) (u : ℕ → ℕ → ℝ) :
    List (List ℤ) :=
  (List.range (topTags st.tagCounts).length).map (fun k =>
    generate_growth_pattern ((topTags st.tagCounts)[k]!).2 pipelineYears (u k))

/-- Lines 104-108: the total of the top tags' synthetic counts for year
index `i`. -/
noncomputable def yearTotal (series : List (List ℤ)) (i : ℕ) : ℤ :=
  (series.map (fun s => s[i]!)).sum

/-- The `yearly_totals` mapping, in year order. -/
noncomputable def yearlyTotals (st : AggState) (u : ℕ → ℕ → ℝ) : List ℤ :=
  (List.range pipelineYears.length).map (fun i => yearTotal (tagSeries st u) i)

/-- Lines 110-114: one entry of `yearly_percentages`:
`round((count / total) * 100 if total > 0 else 0, 2)`. -/
noncomputable def yearPercentage (total count : ℤ) : ℝ :=
  round2 (if 0 < total then ((count : ℝ) / (total : ℝ)) * 100 else 0)

/-- Lines 130-144: the `tags_data` list before sorting, in top-tag order;
`data` are the tag's rounded yearly percentages, `average` is
`round(sum(data) / len(years), 2)`. -/
noncomputable def tagsDataOf (st : AggState) (u : ℕ → ℕ → ℝ) :
    List TagSeries :=
  (List.range (topTags st.tagCounts).length).map (fun k =>
    let data : List ℝ :=
      (List.range pipelineYears.length).map (fun i =>
        yearPercentage (yearTotal (tagSeries st u) i) (((tagSeries st u)[k]!)[i]!))
    { name := ((topTags st.tagCounts)[k]!).1
      data := data
      average := round2 (data.sum / (pipelineYears.length : ℝ)) })

/-- Lines 86-159 of `process_csv` after successful aggregation: build the
report; line 147 sorts `tags_data` by average, descending, stably. -/
noncomputable def buildReport (st : AggState) (u : ℕ → ℕ → ℝ) : Result :=
  Result.ok
    { years := pipelineYears
      tags := sortDescBy TagSeries.average (tagsDataOf st u)
      total_questions := yearlyTotals st u
      total_rows := st.totalRows
      processed_rows := st.processedRows
      unique_tags := st.tagCounts.length
      top_tags_count := (topTags st.tagCounts).length }

/-- `process_csv` (lines 34-159). `fileExists` is `os.path.exists(csv_path)`,
`hasTag` is whether `reader.fieldnames` contains `'Tag'`; `rows` are the
data rows (their `Tag` fields), `u k` the draw stream consumed by the
`k`-th top tag's `generate_growth_pattern` call. An exception escaping
the row loop is caught by the `except` at line 81 and turned into an
`Error reading CSV file` payload. -/
noncomputable def process_csv (fileExists hasTag : Bool)
    (rows : List (Option String)) (u : ℕ → ℕ → ℝ) : Result :=
  if fileExists = false then Result.error "CSV file not found"
  else if hasTag = false then Result.error "Invalid CSV structure"
  else
    match processRows ⟨[], 0, 0⟩ rows with
    | Except.error e =>
      Result.error ("Error reading CSV file: " ++ pyExcMsg e)
    | Except.ok st =>
      if st.processedRows = 0 then Result.error "No valid data found in CSV"
      else buildReport st u

/-- An HTTP response of the `/api/data` route: status code and JSON body. -/
structure HttpResponse : Type where
  status : ℕ
  body : Result

/-- The route handler `get_data` (lines 165-173): a value returned by
`process_csv` (even an error dict) is passed to `jsonify` with status 200;
an exception `e` escaping it yields status 500 with body
`\x7b'error': str(e)\x7d`. -/
def get_data (outcome : Except String Result) : HttpResponse :=
  match outcome with
  | Except.ok data => { status := 200, body := data }
  | Except.error e => { status := 500, body := Result.error e }

/-- Draw stream that always returns 0 (a legal draw for tiers B and C). -/
noncomputable def uZero : ℕ → ℕ → ℝ := fun _ _ => 0

/-- A three-row test dataset: three rows tagged `a`. -/
def testRows : List (Option String) := [some "a", some "a", some "a"]

/-- The report `process_csv` produces on `testRows` with zero draws. -/
noncomputable def testReport : Report :=
  { years := [2023, 2024, 2025]
    tags := [{ name := "a", data := [100, 100, 100], average := 100 }]
    total_questions := [1, 1, 2]
    total_rows := 3
    processed_rows := 3
    unique_tags := 1
    top_tags_count := 1 }

/-! ## Helper lemmas: the stable descending sort -/

theorem insertDescBy_perm {α β : Type} [LinearOrder β] (key : α → β) (x : α) :
    ∀ l : List α, List.Perm (insertDescBy key x l) (x :: l)
  | [] => List.Perm.refl _
  | y :: ys => by
    unfold insertDescBy
    by_cases h : key x < key y
    · rw [if_pos h]
      exact ((insertDescBy_perm key x ys).cons y).trans (List.Perm.swap x y ys)
    · rw [if_neg h]

theorem insertDescBy_sorted {α β : Type} [LinearOrder β] (key : α → β) (x : α) :
    ∀ l : List α, List.Sorted (fun a b => key b ≤ key a) l →
      List.Sorted (fun a b => key b ≤ key a) (insertDescBy key x l)
  | [], _ => by simp [insertDescBy]
  | y :: ys, h => by
    rw [List.sorted_cons] at h
    unfold insertDescBy
    by_cases hxy : key x < key y
    · rw [if_pos hxy, List.sorted_cons]
      refine ⟨?_, insertDescBy_sorted key x ys h.2⟩
      intro b hb
      rcases List.mem_cons.mp ((insertDescBy_perm key x ys).mem_iff.mp hb) with rfl | hb
      · exact le_of_lt hxy
      · exact h.1 b hb
    · rw [if_neg hxy, List.sorted_cons]
      refine ⟨?_, List.sorted_cons.mpr h⟩
      intro b hb
      rcases List.mem_cons.mp hb with rfl | hb
      · exact le_of_not_lt hxy
      · exact le_trans (h.1 b hb) (le_of_not_lt hxy)

theorem insertDescBy_filter_of_eq {α β : Type} [LinearOrder β] (key : α → β)
    (x : α) (v : β) (hx : key x = v) :
    ∀ l : List α,
      (insertDescBy key x l).filter (fun a => decide (key a = v)) =
        x :: l.filter (fun a => decide (key a = v))
  | [] => by simp [insertDescBy, List.filter, hx]
  | y :: ys => by
    unfold insertDescBy
    by_cases hxy : key x < key y
    · have hyv : key y ≠ v := by
        intro hyv
        rw [hx] at hxy
        rw [hyv] at hxy
        exact lt_irrefl v hxy
      rw [if_pos hxy]
      simp only [List.filter_cons, decide_eq_true_eq, if_neg hyv,
        insertDescBy_filter_of_eq key x v hx ys]
    · rw [if_neg hxy]
      simp only [List.filter_cons, decide_eq_true_eq, if_pos hx]

theorem insertDescBy_filter_of_ne {α β : Type} [LinearOrder β] (key : α → β)
    (x : α) (v : β) (hx : key x ≠ v) :
    ∀ l : List α,
      (insertDescBy key x l).filter (fun a => decide (key a = v)) =
        l.filter (fun a => decide (key a = v))
  | [] => by simp [insertDescBy, List.filter, hx]
  | y :: ys => by
    unfold insertDescBy
    by_cases hxy : key x < key y
    · rw [if_pos hxy]
      simp only [List.filter_cons, decide_eq_true_eq,
        insertDescBy_filter_of_ne key x v hx ys]
    · rw [if_neg hxy]
      simp only [List.filter_cons, decide_eq_true_eq, if_neg hx]

theorem sortDescBy_perm {α β : Type} [LinearOrder β] (key : α → β) :
    ∀ l : List α, List.Perm (sortDescBy key l) l
  | [] => List.Perm.refl _
  | x :: xs =>
    (insertDescBy_perm key x (sortDescBy key xs)).trans
      ((sortDescBy_perm key xs).cons x)

theorem sortDescBy_length {α β : Type} [LinearOrder β] (key : α → β)
    (l : List α) : (sortDescBy key l).length = l.length :=
  (sortDescBy_perm key l).length_eq

theorem sortDescBy_sorted {α β : Type} [LinearOrder β] (key : α → β) :
    ∀ l : List α, List.Sorted (fun a b => key b ≤ key a) (sortDescBy key l)
  | [] => List.sorted_nil
  | x :: xs => insertDescBy_sorted key x _ (sortDescBy_sorted key xs)

theorem sortDescBy_filter {α β : Type} [LinearOrder β] (key : α → β) (v : β) :
    ∀ l : List α,
      (sortDescBy key l).filter (fun a => decide (key a = v)) =
        l.filter (fun a => decide (key a = v))
  | [] => rfl
  | x :: xs => by
    show (insertDescBy key x (sortDescBy key xs)).filter _ = _
    by_cases hx : key x = v
    · rw [insertDescBy_filter_of_eq key x v hx, sortDescBy_filter key v xs]
      simp [List.filter_cons, hx]
    · rw [insertDescBy_filter_of_ne key x v hx, sortDescBy_filter key v xs]
      simp [List.filter_cons, hx]

/-! ## Helper lemmas: the top-tag selection -/

theorem topTags_length (tally : List (String × ℕ)) :
    (topTags tally).length = min 10 tally.length := by
  simp [topTags, List.length_take, sortDescBy_length]

theorem topTags_length_le (tally : List (String × ℕ)) :
    (topTags tally).length ≤ 10 := by
  rw [topTags_length]
  exact min_le_left _ _

theorem topTags_sorted (tally : List (String × ℕ)) :
    List.Sorted (fun a b : String × ℕ => b.2 ≤ a.2) (topTags tally) :=
  List.Pairwise.sublist (List.take_sublist 10 _)
    (sortDescBy_sorted Prod.snd tally)

theorem topTags_stable (tally : List (String × ℕ)) (c : ℕ) :
    List.Sublist ((topTags tally).filter (fun p => decide (p.2 = c)))
      (tally.filter (fun p => decide (p.2 = c))) := by
  rw [← sortDescBy_filter Prod.snd c tally]
  exact List.Sublist.filter _ (List.take_sublist 10 _)

/-! ## Helper lemmas: the tag tally and the row loop -/

theorem bump_ne_nil : ∀ (l : List (String × ℕ)) (t : String), bump l t ≠ []
  | [], t => by simp [bump]
  | (s, c) :: rest, t => by
    unfold bump
    by_cases h : s = t
    · rw [if_pos h]
      simp
    · rw [if_neg h]
      simp

theorem bump_length_ge : ∀ (l : List (String × ℕ)) (t : String),
    l.length ≤ (bump l t).length
  | [], t => by simp [bump]
  | (s, c) :: rest, t => by
    unfold bump
    by_cases h : s = t
    · rw [if_pos h]
      simp
    · rw [if_neg h]
      simpa using bump_length_ge rest t

theorem mem_bump_keys : ∀ (l : List (String × ℕ)) (t x : String),
    (x ∈ (bump l t).map Prod.fst ↔ x ∈ l.map Prod.fst ∨ x = t)
  | [], t, x => by simp [bump]
  | (s, c) :: rest, t, x => by
    unfold bump
    by_cases h : s = t
    · rw [if_pos h]
      subst h
      simp only [List.map_cons, List.mem_cons]
      tauto
    · rw [if_neg h]
      simp only [List.map_cons, List.mem_cons, mem_bump_keys rest t x]
      tauto

theorem processRows_totalRows (rows : List (Option String)) :
    ∀ st st2, processRows st rows = Except.ok st2 →
      st2.totalRows = st.totalRows + rows.length := by
  induction rows with
  | nil =>
    intro st st2 h
    simp only [processRows, Except.ok.injEq] at h
    rw [← h]
    simp
  | cons r rs ih =>
    intro st st2 h
    cases r with
    | none => simp [processRows, rowTag, caughtByRowHandler] at h
    | some s =>
      by_cases hs : pyStrip s = ""
      · simp only [processRows, rowTag, hs, ne_eq, not_true_eq_false,
          if_false, ite_not] at h
        have := ih _ _ h
        simp only [List.length_cons] at *
        omega
      · simp only [processRows, rowTag, ne_eq, hs, not_false_eq_true,
          if_true, ite_not] at h
        have := ih _ _ h
        simp only [List.length_cons] at *
        omega

theorem processRows_processedRows (rows : List (Option String)) :
    ∀ st st2, processRows st rows = Except.ok st2 →
      st.processedRows ≤ st2.processedRows ∧
        st2.processedRows ≤ st.processedRows + rows.length := by
  induction rows with
  | nil =>
    intro st st2 h
    simp only [processRows, Except.ok.injEq] at h
    rw [← h]
    simp
  | cons r rs ih =>
    intro st st2 h
    cases r with
    | none => simp [processRows, rowTag, caughtByRowHandler] at h
    | some s =>
      by_cases hs : pyStrip s = ""
      · simp only [processRows, rowTag, hs, ne_eq, not_true_eq_false,
          if_false, ite_not] at h
        have := ih _ _ h
        simp only [List.length_cons] at *
        omega
      · simp only [processRows, rowTag, ne_eq, hs, not_false_eq_true,
          if_true, ite_not] at h
        have := ih _ _ h
        simp only [List.length_cons] at *
        omega

theorem processRows_tags_len_mono (rows : List (Option String)) :
    ∀ st st2, processRows st rows = Except.ok st2 →
      st.tagCounts.length ≤ st2.tagCounts.length := by
  induction rows with
  | nil =>
    intro st st2 h
    simp only [processRows, Except.ok.injEq] at h
    rw [← h]
  | cons r rs ih =>
    intro st st2 h
    cases r with
    | none => simp [processRows, rowTag, caughtByRowHandler] at h
    | some s =>
      by_cases hs : pyStrip s = ""
      · simp only [processRows, rowTag, hs, ne_eq, not_true_eq_false,
          if_false, ite_not] at h
        have := ih _ _ h
        simpa using this
      · simp only [processRows, rowTag, ne_eq, hs, not_false_eq_true,
          if_true, ite_not] at h
        have := ih _ _ h
        simp only at this
        exact le_trans (bump_length_ge _ _) this

theorem processRows_tags_nonempty (rows : List (Option String)) :
    ∀ st st2, processRows st rows = Except.ok st2 →
      st.processedRows < st2.processedRows → 1 ≤ st2.tagCounts.length := by
  induction rows with
  | nil =>
    intro st st2 h hlt
    simp only [processRows, Except.ok.injEq] at h
    rw [← h] at hlt
    exact absurd hlt (lt_irrefl _)
  | cons r rs ih =>
    intro st st2 h hlt
    cases r with
    | none => simp [processRows, rowTag, caughtByRowHandler] at h
    | some s =>
      by_cases hs : pyStrip s = ""
      · simp only [processRows, rowTag, hs, ne_eq, not_true_eq_false,
          if_false, ite_not] at h
        exact ih _ _ h (by simpa using hlt)
      · simp only [processRows, rowTag, ne_eq, hs, not_false_eq_true,
          if_true, ite_not] at h
        have h1 : 1 ≤ (bump st.tagCounts (pyStrip s)).length :=
          List.length_pos.mpr (bump_ne_nil _ _)
        exact le_trans h1 (processRows_tags_len_mono rs _ _ h)

/-! ## Helper lemmas: arithmetic -/

theorem getElem!_map_range {α : Type} [Inhabited α] (f : ℕ → α) {n i : ℕ}
    (h : i < n) : ((List.range n).map f)[i]! = f i := by
  rw [getElem!_pos _ _ (by simpa using h)]
  simp

theorem pyInt_nonneg {x : ℝ} (h : 0 ≤ x) : 0 ≤ pyInt x := by
  unfold pyInt
  rw [if_neg (not_lt.mpr h)]
  exact Int.floor_nonneg.mpr h

theorem generate_growth_pattern_length (base : ℕ) (years : List ℕ)
    (u : ℕ → ℝ) : (generate_growth_pattern base years u).length = 3 := by
  unfold generate_growth_pattern
  split_ifs <;> simp

theorem growth_counts_nonneg (base : ℕ) (years : List ℕ) (u : ℕ → ℝ)
    (hu : drawsValid base u) :
    ∀ c ∈ generate_growth_pattern base years u, 0 ≤ c := by
  intro c hc
  unfold generate_growth_pattern at hc
  unfold drawsValid at hu
  have hb : (0 : ℝ) ≤ (base : ℝ) := Nat.cast_nonneg base
  by_cases h1 : base > 1500
  · rw [if_pos h1] at hc hu
    simp only [List.mem_map, List.mem_range] at hc
    obtain ⟨i, hi, rfl⟩ := hc
    have hi0 : (0 : ℝ) ≤ (i : ℝ) := Nat.cast_nonneg i
    have hlog : 0 ≤ Real.log ((i : ℝ) + 2) := Real.log_nonneg (by linarith)
    have hui := (hu i hi).1
    exact pyInt_nonneg (mul_nonneg (mul_nonneg hb (by linarith)) (by linarith))
  · rw [if_neg h1] at hc hu
    by_cases h2 : base > 800
    · rw [if_pos h2] at hc hu
      simp only [List.mem_map, List.mem_range] at hc
      obtain ⟨i, hi, rfl⟩ := hc
      have hi0 : (0 : ℝ) ≤ (i : ℝ) := Nat.cast_nonneg i
      have hui := (hu i hi).1
      exact pyInt_nonneg (by nlinarith)
    · rw [if_neg h2] at hc hu
      simp only [List.mem_map, List.mem_range] at hc
      obtain ⟨i, hi, rfl⟩ := hc
      have hi0 : (0 : ℝ) ≤ (i : ℝ) := Nat.cast_nonneg i
      have hui := (hu i hi).1
      exact pyInt_nonneg (by nlinarith)

theorem round2_abs_sub_le (x : ℝ) : |round2 x - x| ≤ 1 / 200 := by
  unfold round2
  have h := abs_sub_round (x * 100)
  have heq : ((round (x * 100) : ℤ) : ℝ) / 100 - x =
      -((x * 100 - (round (x * 100) : ℤ)) / 100) := by ring
  rw [heq, abs_neg, abs_div]
  rw [abs_of_pos (by norm_num : (0 : ℝ) < 100)]
  linarith

theorem list_sum_sub_abs_le {ι : Type} (l : List ι) (f g : ι → ℝ) (ε : ℝ) :
    (∀ x ∈ l, |f x - g x| ≤ ε) →
      |(l.map f).sum - (l.map g).sum| ≤ l.length * ε := by
  induction l with
  | nil => intro _; simp
  | cons a l ih =>
    intro h
    have h1 := h a (List.mem_cons_self a l)
    have h2 := ih (fun x hx => h x (List.mem_cons_of_mem a hx))
    simp only [List.map_cons, List.sum_cons, List.length_cons]
    have h3 := abs_add (f a - g a)
      ((l.map f).sum - (l.map g).sum)
    have heq : f a + (l.map f).sum - (g a + (l.map g).sum) =
        f a - g a + ((l.map f).sum - (l.map g).sum) := by ring
    rw [heq]
    push_cast
    nlinarith [abs_nonneg (f a - g a)]

theorem list_sum_div_mul (l : List ℝ) (T A : ℝ) :
    (l.map (fun c => c / T * A)).sum = l.sum / T * A := by
  induction l with
  | nil => simp
  | cons a l ih =>
    simp only [List.map_cons, List.sum_cons, ih]
    ring

/-! ## Helper lemmas: the aggregate row-loop characterisation -/

theorem processRows_mapSome (rows : List String) :
    ∀ st : AggState, ∃ st2 : AggState,
      processRows st (rows.map some) = Except.ok st2 ∧
      st2.totalRows = st.totalRows + rows.length ∧
      st2.processedRows =
        st.processedRows + (rows.filter (fun s => decide (pyStrip s ≠ ""))).length ∧
      ∀ x : String, (x ∈ st2.tagCounts.map Prod.fst ↔
        x ∈ st.tagCounts.map Prod.fst ∨ (x ≠ "" ∧ x ∈ rows.map pyStrip)) := by
  induction rows with
  | nil =>
    intro st
    exact ⟨st, rfl, by simp, by simp, fun x => by simp⟩
  | cons s rs ih =>
    intro st
    by_cases hs : pyStrip s = ""
    · obtain ⟨st2, hrun, htot, hproc, hkeys⟩ :=
        ih { st with totalRows := st.totalRows + 1 }
      refine ⟨st2, ?_, ?_, ?_, ?_⟩
      · simpa [processRows, rowTag, hs] using hrun
      · rw [htot]
        simp only [List.length_cons]
        omega
      · rw [hproc]
        simp [List.filter_cons, hs]
      · intro x
        rw [hkeys x]
        simp only [List.map_cons, List.mem_cons, hs]
        constructor
        · rintro (h | ⟨hne, h⟩)
          · exact Or.inl h
          · exact Or.inr ⟨hne, Or.inr h⟩
        · rintro (h | ⟨hne, (h | h)⟩)
          · exact Or.inl h
          · exact absurd h hne
          · exact Or.inr ⟨hne, h⟩
    · obtain ⟨st2, hrun, htot, hproc, hkeys⟩ :=
        ih { st with totalRows := st.totalRows + 1,
                     tagCounts := bump st.tagCounts (pyStrip s),
                     processedRows := st.processedRows + 1 }
      refine ⟨st2, ?_, ?_, ?_, ?_⟩
      · simpa [processRows, rowTag, hs] using hrun
      · rw [htot]
        simp only [List.length_cons]
        omega
      · rw [hproc]
        simp only [List.filter_cons, List.length_cons, hs, decide_not]
        simp [hs]
        omega
      · intro x
        rw [hkeys x]
        simp only [mem_bump_keys, List.map_cons, List.mem_cons]
        constructor
        · rintro ((h | rfl) | ⟨hne, h⟩)
          · exact Or.inl h
          · exact Or.inr ⟨hs, Or.inl rfl⟩
          · exact Or.inr ⟨hne, Or.inr h⟩
        · rintro (h | ⟨hne, (rfl | h)⟩)
          · exact Or.inl (Or.inl h)
          · exact Or.inl (Or.inr rfl)
          · exact Or.inr ⟨hne, h⟩

/-- Inversion of a successful `process_csv` run: the file existed, the
schema was valid, the row loop succeeded with at least one processed row,
and the report is the one `buildReport` builds. -/
theorem process_csv_ok_elim {fe ht : Bool} {rows : List (Option String)}
    {u : ℕ → ℕ → ℝ} {report : Report}
    (h : process_csv fe ht rows u = Result.ok report) :
    ∃ st : AggState, processRows ⟨[], 0, 0⟩ rows = Except.ok st ∧
      st.processedRows ≠ 0 ∧ buildReport st u = Result.ok report := by
  unfold process_csv at h
  by_cases hfe : fe = false
  · rw [if_pos hfe] at h
    exact absurd h (by simp)
  · rw [if_neg hfe] at h
    by_cases hht : ht = false
    · rw [if_pos hht] at h
      exact absurd h (by simp)
    · rw [if_neg hht] at h
      cases hpr : processRows ⟨[], 0, 0⟩ rows with
      | error e =>
        rw [hpr] at h
        exact absurd h (by simp)
      | ok st =>
        rw [hpr] at h
        simp only at h
        by_cases hz : st.processedRows = 0
        · rw [if_pos hz] at h
          exact absurd h (by simp)
        · rw [if_neg hz] at h
          exact ⟨st, rfl, hz, h⟩

/-- Any list map can be written as a map over the index range. -/
theorem list_map_eq_map_range {α γ : Type} [Inhabited α] (f : α → γ) :
    ∀ L : List α,
      L.map f = (List.range L.length).map (fun k => f (L[k]!))
  | [] => rfl
  | a :: l => by
    rw [List.length_cons, List.range_succ_eq_map]
    simp only [List.map_cons, List.map_map, List.getElem!_cons_zero,
      List.cons.injEq, true_and]
    rw [list_map_eq_map_range f l]
    apply List.map_congr_left
    intro k _
    simp [List.getElem!_cons_succ]

/-- Core numeric fact behind C3: over at most 10 counts with positive
total, the rounded percentages `round((c / total) * 100, 2)` sum to
100 up to 0.1. -/
theorem percentage_sum_bound (cs : List ℤ) (hlen : cs.length ≤ 10)
    (hpos : 0 < cs.sum) :
    |(cs.map (fun c => yearPercentage cs.sum c)).sum - 100| ≤ 0.1 := by
  have hT0 : ((cs.sum : ℤ) : ℝ) ≠ 0 := Int.cast_ne_zero.mpr (ne_of_gt hpos)
  have hfg : cs.map (fun c => yearPercentage cs.sum c) =
      cs.map (fun (c : ℤ) => round2 ((c : ℝ) / (cs.sum : ℝ) * 100)) := by
    apply List.map_congr_left
    intro c _
    unfold yearPercentage
    rw [if_pos hpos]
  have hg : (cs.map (fun (c : ℤ) => (c : ℝ) / (cs.sum : ℝ) * 100)).sum = 100 := by
    have hcomp : cs.map (fun (c : ℤ) => (c : ℝ) / (cs.sum : ℝ) * 100) =
        (cs.map (fun c : ℤ => (c : ℝ))).map
          (fun x : ℝ => x / (cs.sum : ℝ) * 100) := by
      rw [List.map_map]
      rfl
    rw [hcomp, list_sum_div_mul]
    have hsum : (cs.map (fun c : ℤ => (c : ℝ))).sum = ((cs.sum : ℤ) : ℝ) :=
      (Int.cast_list_sum cs).symm
    rw [hsum, div_self hT0]
    norm_num
  have hbound := list_sum_sub_abs_le cs
    (fun (c : ℤ) => round2 ((c : ℝ) / (cs.sum : ℝ) * 100))
    (fun (c : ℤ) => (c : ℝ) / (cs.sum : ℝ) * 100) (1 / 200)
    (fun c _ => round2_abs_sub_le ((c : ℝ) / (cs.sum : ℝ) * 100))
  rw [hfg]
  have hl : (cs.length : ℝ) ≤ 10 := by exact_mod_cast hlen
  have hstep : (cs.length : ℝ) * (1 / 200) ≤ 10 * (1 / 200) := by
    apply mul_le_mul_of_nonneg_right hl
    norm_num
  calc |(cs.map (fun (c : ℤ) => round2 ((c : ℝ) / (cs.sum : ℝ) * 100))).sum - 100|
      = |(cs.map (fun (c : ℤ) => round2 ((c : ℝ) / (cs.sum : ℝ) * 100))).sum -
          (cs.map (fun (c : ℤ) => (c : ℝ) / (cs.sum : ℝ) * 100)).sum| := by
        rw [hg]
    _ ≤ (cs.length : ℝ) * (1 / 200) := hbound
    _ ≤ 10 * (1 / 200) := hstep
    _ ≤ 0.1 := by norm_num

/-! ## Claims about the Growth Synthesizer -/

/-- Claim C9: the Growth Synthesizer never reads its `years` argument: with
identical draws, any two values of `years` give identical length-3
output sequences. -/
theorem generate_growth_pattern_ignores_years (base : ℕ) (u : ℕ → ℝ)
    (years1 years2 : List ℕ) :
    generate_growth_pattern base years1 u =
        generate_growth_pattern base years2 u ∧
      (generate_growth_pattern base years1 u).length = 3 :=
  ⟨rfl, generate_growth_pattern_length base years1 u⟩

/-- Claim C5: the formula is selected by magnitude tier (base > 1500,
800 < base ≤ 1500, base ≤ 800) and the i-th output is the integer
truncation of base times the tier's growth expression. -/
theorem generate_growth_pattern_tiers (base : ℕ) (years : List ℕ)
    (u : ℕ → ℝ) (i : ℕ) (hi : i < 3) :
    (1500 < base →
      (generate_growth_pattern base years u)[i]! =
        pyInt ((base : ℝ) * (0.4 + 0.3 * Real.log ((i : ℝ) + 2)) * u i)) ∧
    (800 < base → base ≤ 1500 →
      (generate_growth_pattern base years u)[i]! =
        pyInt ((base : ℝ) * (0.4 + 0.18 * (i : ℝ) + u i))) ∧
    (base ≤ 800 →
      (generate_growth_pattern base years u)[i]! =
        pyInt ((base : ℝ) * (0.4 + 0.15 * (i : ℝ) + u i))) := by
  unfold generate_growth_pattern
  refine ⟨fun h1 => ?_, fun h2 h3 => ?_, fun h4 => ?_⟩
  · rw [if_pos (by omega : base > 1500), getElem!_map_range _ hi]
    congr 1
    ring
  · rw [if_neg (by omega : ¬ base > 1500), if_pos (by omega : base > 800),
      getElem!_map_range _ hi]
    congr 1
    ring
  · rw [if_neg (by omega : ¬ base > 1500), if_neg (by omega : ¬ base > 800),
      getElem!_map_range _ hi]
    congr 1
    ring

/-- Witness for C5: base 3 falls in the last tier; with zero draws the
first output is the truncation of 3 times 0.4. -/
theorem generate_growth_pattern_tiers_witness :
    (generate_growth_pattern 3 pipelineYears (fun _ => (0 : ℝ)))[0]! =
      pyInt ((3 : ℝ) * (0.4 + 0.15 * ((0 : ℕ) : ℝ) + 0)) :=
  (generate_growth_pattern_tiers 3 pipelineYears (fun _ => (0 : ℝ)) 0
    (by norm_num)).2.2 (by norm_num)

/-- Claim C2, counterexample: at base count 0, with legal tier-C draws (all 0),
the synthesizer returns `[0, 0, 0]`: three values, none of them positive,
refuting "every value in the sequence is a positive integer". -/
theorem generate_growth_pattern_not_always_positive :
    drawsValid 0 (fun _ => (0 : ℝ)) ∧
      generate_growth_pattern 0 pipelineYears (fun _ => (0 : ℝ)) = [0, 0, 0] ∧
      ¬ (∀ c ∈ generate_growth_pattern 0 pipelineYears (fun _ => (0 : ℝ)),
          0 < c) := by
  have hrange : List.range 3 = [0, 1, 2] := rfl
  have heq : generate_growth_pattern 0 pipelineYears (fun _ => (0 : ℝ)) =
      [0, 0, 0] := by
    unfold generate_growth_pattern
    rw [if_neg (by norm_num), if_neg (by norm_num), hrange]
    simp [pyInt]
  refine ⟨?_, heq, ?_⟩
  · unfold drawsValid
    norm_num
  · intro hall
    have h0 := hall 0 (by rw [heq]; simp)
    exact lt_irrefl 0 h0

/-- Claim C2 as amended: for every base count and draws in the stated ranges,
the synthesizer returns exactly 3 values, each a nonnegative integer
(positivity fails, e.g. at base count 0). -/
theorem generate_growth_pattern_three_nonneg (base : ℕ) (years : List ℕ)
    (u : ℕ → ℝ) (hu : drawsValid base u) :
    (generate_growth_pattern base years u).length = 3 ∧
      ∀ c ∈ generate_growth_pattern base years u, 0 ≤ c :=
  ⟨generate_growth_pattern_length base years u,
    growth_counts_nonneg base years u hu⟩

/-- Witness for C2 (amended) at base 5 with zero draws. -/
theorem generate_growth_pattern_three_nonneg_witness :
    (generate_growth_pattern 5 pipelineYears (fun _ => (0 : ℝ))).length = 3 ∧
      ∀ c ∈ generate_growth_pattern 5 pipelineYears (fun _ => (0 : ℝ)),
        0 ≤ c :=
  generate_growth_pattern_three_nonneg 5 pipelineYears (fun _ => (0 : ℝ))
    (by unfold drawsValid; norm_num)

/-! ## Claims about the Aggregator -/

/-- Claim C4: for every tag tally, the selection has length
min(10, number of distinct tags), is sorted descending by count, and
entries with equal counts keep their first-seen (tally) order. -/
theorem topTags_spec (tally : List (String × ℕ)) :
    (topTags tally).length = min 10 tally.length ∧
      List.Sorted (fun a b : String × ℕ => b.2 ≤ a.2) (topTags tally) ∧
      ∀ c : ℕ,
        List.Sublist ((topTags tally).filter (fun p => decide (p.2 = c)))
          (tally.filter (fun p => decide (p.2 = c))) :=
  ⟨topTags_length tally, topTags_sorted tally, fun c => topTags_stable tally c⟩

/-- Claim C7: over rows whose tag field is readable, a row is tallied and
counted in `processed_rows` iff its trimmed tag is non-empty; every row
counts into `total_rows`; the tally's keys are exactly the non-empty
trimmed tags. -/
theorem processRows_contributes_iff (rows : List String) :
    ∃ st : AggState, processRows ⟨[], 0, 0⟩ (rows.map some) = Except.ok st ∧
      st.totalRows = rows.length ∧
      st.processedRows = (rows.filter (fun s => decide (pyStrip s ≠ ""))).length ∧
      ∀ x : String,
        (x ∈ st.tagCounts.map Prod.fst ↔ x ≠ "" ∧ x ∈ rows.map pyStrip) := by
  obtain ⟨st2, h1, h2, h3, h4⟩ := processRows_mapSome rows ⟨[], 0, 0⟩
  exact ⟨st2, h1, by simpa using h2, by simpa using h3,
    fun x => by simpa using h4 x⟩

/-! ## Claims about the pipeline and the HTTP route -/

/-- Claim C1, code defect: a row whose tag field is missing does NOT merely get
skipped: `None.strip()` raises `AttributeError`, which the row handler
`except (ValueError, KeyError)` does not catch, so the exception escapes
the loop, is caught at file level, and the whole aggregation returns the
file-level error payload — even when valid rows surround the bad one. -/
theorem process_csv_missing_tag_aborts :
    process_csv true true [some "a", none, some "b"] uZero =
      Result.error ("Error reading CSV file: " ++ pyExcMsg PyExc.attrError) := by
  rfl

/-- Claim C6: a structured aggregator failure (missing file, missing Tag column,
zero processed rows) is returned by the route as HTTP 200 with the error
dict — the no-data case exactly as `No valid data found in CSV` — while
an exception escaping `process_csv` yields HTTP 500 with the exception
text as the error value. -/
theorem get_data_error_paths :
    (∀ (ht : Bool) (rows : List (Option String)) (u : ℕ → ℕ → ℝ),
      get_data (Except.ok (process_csv false ht rows u)) =
        { status := 200, body := Result.error "CSV file not found" }) ∧
    (∀ (rows : List (Option String)) (u : ℕ → ℕ → ℝ),
      get_data (Except.ok (process_csv true false rows u)) =
        { status := 200, body := Result.error "Invalid CSV structure" }) ∧
    (∀ (rows : List (Option String)) (u : ℕ → ℕ → ℝ) (st : AggState),
      processRows ⟨[], 0, 0⟩ rows = Except.ok st → st.processedRows = 0 →
      get_data (Except.ok (process_csv true true rows u)) =
        { status := 200, body := Result.error "No valid data found in CSV" }) ∧
    (∀ e : String,
      get_data (Except.error e) = { status := 500, body := Result.error e }) := by
  refine ⟨fun ht rows u => rfl, fun rows u => rfl,
    fun rows u st h hz => ?_, fun e => rfl⟩
  unfold process_csv get_data
  rw [if_neg (by simp), if_neg (by simp), h]
  simp only [hz, if_pos]

/-- Claim C10: every successful pipeline result satisfies the metadata
invariants: `top_tags_count = min 10 unique_tags`, at least one unique
tag, at least one processed row, `processed_rows ≤ total_rows`, and the
years list is exactly [2023, 2024, 2025]. -/
theorem process_csv_metadata (fe ht : Bool) (rows : List (Option String))
    (u : ℕ → ℕ → ℝ) (report : Report)
    (h : process_csv fe ht rows u = Result.ok report) :
    report.top_tags_count = min 10 report.unique_tags ∧
      1 ≤ report.unique_tags ∧
      1 ≤ report.processed_rows ∧
      report.processed_rows ≤ report.total_rows ∧
      report.years = [2023, 2024, 2025] := by
  obtain ⟨st, hrun, hz, hbuild⟩ := process_csv_ok_elim h
  unfold buildReport at hbuild
  simp only [Result.ok.injEq] at hbuild
  subst hbuild
  have hpos : 0 < st.processedRows := Nat.pos_of_ne_zero hz
  have htot := processRows_totalRows rows _ _ hrun
  have hproc := processRows_processedRows rows _ _ hrun
  have htags := processRows_tags_nonempty rows _ _ hrun (by simpa using hpos)
  simp only at htot hproc htags
  refine ⟨topTags_length st.tagCounts, htags, hpos, ?_, rfl⟩
  show st.processedRows ≤ st.totalRows
  omega

/-- Claim C8: in every successful run, each report entry's average is the
2-decimal rounding of the mean of its 3 (already rounded) yearly
percentages, and the report's tags list is the stable descending-by-
average reordering of the tag list built in top-tag order: sorted
descending, a permutation of it, and with tied averages kept in top-tag
order. -/
theorem report_tags_sorted_by_average (rows : List (Option String))
    (u : ℕ → ℕ → ℝ) (st : AggState) (report : Report)
    (hrun : processRows ⟨[], 0, 0⟩ rows = Except.ok st)
    (h : process_csv true true rows u = Result.ok report) :
    (∀ t ∈ report.tags, t.data.length = 3 ∧
        t.average = round2 (t.data.sum / 3)) ∧
      List.Sorted (fun a b : TagSeries => b.average ≤ a.average) report.tags ∧
      List.Perm report.tags (tagsDataOf st u) ∧
      ∀ a : ℝ, report.tags.filter (fun t => decide (t.average = a)) =
        (tagsDataOf st u).filter (fun t => decide (t.average = a)) := by
  obtain ⟨st2, hrun2, hz, hbuild⟩ := process_csv_ok_elim h
  have hst : st2 = st := Except.ok.inj (hrun2.symm.trans hrun)
  subst hst
  unfold buildReport at hbuild
  simp only [Result.ok.injEq] at hbuild
  subst hbuild
  refine ⟨?_, sortDescBy_sorted TagSeries.average (tagsDataOf st2 u),
    sortDescBy_perm TagSeries.average (tagsDataOf st2 u),
    fun a => sortDescBy_filter TagSeries.average a (tagsDataOf st2 u)⟩
  intro t ht
  have hmem : t ∈ tagsDataOf st2 u :=
    (sortDescBy_perm TagSeries.average (tagsDataOf st2 u)).mem_iff.mp ht
  unfold tagsDataOf at hmem
  simp only [List.mem_map, List.mem_range] at hmem
  obtain ⟨k, hk, rfl⟩ := hmem
  have hpl : (pipelineYears.length : ℝ) = 3 := by norm_num [pipelineYears]
  constructor
  · simp [pipelineYears]
  · simp only [hpl]

/-- Claim C3: in every successful run with draws in the stated ranges, for every
year whose total is nonzero, the rounded percentages of the top tags for
that year sum to 100 within a tolerance of 0.1. -/
theorem year_percentages_sum_to_100 (rows : List (Option String))
    (u : ℕ → ℕ → ℝ) (st : AggState) (report : Report)
    (hrun : processRows ⟨[], 0, 0⟩ rows = Except.ok st)
    (h : process_csv true true rows u = Result.ok report)
    (hu : ∀ k, k < (topTags st.tagCounts).length →
      drawsValid ((topTags st.tagCounts)[k]!).2 (u k))
    (i : ℕ) (hi : i < 3)
    (hT : report.total_questions[i]! ≠ 0) :
    |(report.tags.map (fun t => t.data[i]!)).sum - 100| ≤ 0.1 := by
  obtain ⟨st2, hrun2, hz, hbuild⟩ := process_csv_ok_elim h
  have hst : st2 = st := Except.ok.inj (hrun2.symm.trans hrun)
  subst hst
  unfold buildReport at hbuild
  simp only [Result.ok.injEq] at hbuild
  subst hbuild
  simp only at hT ⊢
  have hiP : i < pipelineYears.length := by
    simpa [pipelineYears] using hi
  -- the year total named as a sum over the per-tag counts at year i
  have hcnt : ∀ k, k < (topTags st2.tagCounts).length →
      (tagSeries st2 u)[k]! =
        generate_growth_pattern ((topTags st2.tagCounts)[k]!).2
          pipelineYears (u k) := by
    intro k hk
    unfold tagSeries
    exact getElem!_map_range _ hk
  have hTval : (yearlyTotals st2 u)[i]! = yearTotal (tagSeries st2 u) i := by
    unfold yearlyTotals
    exact getElem!_map_range _ hiP
  have hserieslen : (tagSeries st2 u).length = (topTags st2.tagCounts).length := by
    unfold tagSeries
    simp
  have hTsum : yearTotal (tagSeries st2 u) i =
      ((List.range (topTags st2.tagCounts).length).map
        (fun k => ((tagSeries st2 u)[k]!)[i]!)).sum := by
    unfold yearTotal
    rw [list_map_eq_map_range (fun s : List ℤ => s[i]!) (tagSeries st2 u),
      hserieslen]
  have hnonneg : ∀ k, k < (topTags st2.tagCounts).length →
      (0 : ℤ) ≤ ((tagSeries st2 u)[k]!)[i]! := by
    intro k hk
    rw [hcnt k hk]
    have hlen := generate_growth_pattern_length
      ((topTags st2.tagCounts)[k]!).2 pipelineYears (u k)
    have hib : i < (generate_growth_pattern ((topTags st2.tagCounts)[k]!).2
        pipelineYears (u k)).length := by
      rw [hlen]
      exact hi
    have hmemi : (generate_growth_pattern ((topTags st2.tagCounts)[k]!).2
        pipelineYears (u k))[i]! ∈
        generate_growth_pattern ((topTags st2.tagCounts)[k]!).2
          pipelineYears (u k) := by
      rw [getElem!_pos (generate_growth_pattern ((topTags st2.tagCounts)[k]!).2
        pipelineYears (u k)) i hib]
      exact List.getElem_mem hib
    exact growth_counts_nonneg _ _ _ (hu k hk) _ hmemi
  -- the list of counts for year i
  have hcspos :
      0 < ((List.range (topTags st2.tagCounts).length).map
        (fun k => ((tagSeries st2 u)[k]!)[i]!)).sum := by
    have hge : (0 : ℤ) ≤ ((List.range (topTags st2.tagCounts).length).map
        (fun k => ((tagSeries st2 u)[k]!)[i]!)).sum := by
      apply List.sum_nonneg
      intro x hx
      simp only [List.mem_map, List.mem_range] at hx
      obtain ⟨k, hk, rfl⟩ := hx
      exact hnonneg k hk
    have hne : ((List.range (topTags st2.tagCounts).length).map
        (fun k => ((tagSeries st2 u)[k]!)[i]!)).sum ≠ 0 := by
      rw [← hTsum, ← hTval]
      exact hT
    omega
  -- the sum of displayed percentages equals the sum over the count list
  have hsum_eq :
      ((sortDescBy TagSeries.average (tagsDataOf st2 u)).map
        (fun t => t.data[i]!)).sum =
      (((List.range (topTags st2.tagCounts).length).map
          (fun k => ((tagSeries st2 u)[k]!)[i]!)).map
        (fun c => yearPercentage (yearTotal (tagSeries st2 u) i) c)).sum := by
    have hperm := (sortDescBy_perm TagSeries.average (tagsDataOf st2 u)).map
      (fun t => t.data[i]!)
    rw [hperm.sum_eq]
    unfold tagsDataOf
    rw [List.map_map, List.map_map]
    apply congrArg
    apply List.map_congr_left
    intro k hk
    simp only [List.mem_range] at hk
    simp only [Function.comp_apply]
    exact getElem!_map_range _ hiP
  rw [hsum_eq]
  have hfinal := percentage_sum_bound
    ((List.range (topTags st2.tagCounts).length).map
      (fun k => ((tagSeries st2 u)[k]!)[i]!))
    (by
      rw [List.length_map, List.length_range]
      exact topTags_length_le st2.tagCounts)
    hcspos
  rw [← hTsum] at hfinal
  exact hfinal

/-! ## Concrete evaluation of the pipeline on the test dataset -/

/-- Evaluating the full pipeline on three rows tagged `a` with zero draws:
the tally is `a ↦ 3`, tier C produces the series [1, 1, 2], every year is
100 percent, and the metadata counts are as in `testReport`. -/
theorem process_csv_testRows_eval :
    process_csv true true testRows uZero = Result.ok testReport := by
  have hrun : processRows ⟨[], 0, 0⟩ testRows =
      Except.ok ⟨[("a", 3)], 3, 3⟩ := by rfl
  have htop : topTags [("a", 3)] = [("a", 3)] := by rfl
  have hgen : generate_growth_pattern 3 pipelineYears (uZero 0) = [1, 1, 2] := by
    unfold generate_growth_pattern
    rw [if_neg (by norm_num), if_neg (by norm_num)]
    have hr : List.range 3 = [0, 1, 2] := rfl
    rw [hr]
    simp only [List.map_cons, List.map_nil, List.cons.injEq, and_true]
    norm_num [pyInt, uZero]
  have hseries : tagSeries ⟨[("a", 3)], 3, 3⟩ uZero = [[1, 1, 2]] := by
    unfold tagSeries
    simp only [htop, List.length_cons, List.length_nil, List.range_succ,
      List.range_zero, List.nil_append, List.map_cons, List.map_nil,
      List.getElem!_cons_zero]
    rw [hgen]
  have hyt : yearlyTotals ⟨[("a", 3)], 3, 3⟩ uZero = [1, 1, 2] := by
    unfold yearlyTotals
    simp only [hseries]
    rfl
  have hp1 : yearPercentage 1 1 = 100 := by
    unfold yearPercentage
    rw [if_pos (by norm_num : (0 : ℤ) < 1)]
    unfold round2
    norm_num [round_eq]
  have hp2 : yearPercentage 2 2 = 100 := by
    unfold yearPercentage
    rw [if_pos (by norm_num : (0 : ℤ) < 2)]
    unfold round2
    norm_num [round_eq]
  have havg : round2 (([(100 : ℝ), 100, 100]).sum / ((pipelineYears.length : ℕ) : ℝ)) =
      100 := by
    have hlen3 : ((pipelineYears.length : ℕ) : ℝ) = 3 := by norm_num [pipelineYears]
    rw [hlen3]
    unfold round2
    norm_num [round_eq]
  have htd : tagsDataOf ⟨[("a", 3)], 3, 3⟩ uZero =
      [{ name := "a", data := [100, 100, 100], average := 100 }] := by
    have hpl : List.range pipelineYears.length = [0, 1, 2] := rfl
    have hY0 : yearTotal [[(1 : ℤ), 1, 2]] 0 = 1 := rfl
    have hY1 : yearTotal [[(1 : ℤ), 1, 2]] 1 = 1 := rfl
    have hY2 : yearTotal [[(1 : ℤ), 1, 2]] 2 = 2 := rfl
    unfold tagsDataOf
    simp only [htop, hseries, hpl, List.length_cons, List.length_nil,
      List.range_succ, List.range_zero, List.nil_append, List.map_cons,
      List.map_nil, List.getElem!_cons_zero, List.getElem!_cons_succ,
      hY0, hY1, hY2]
    rw [hp1, hp2, havg]
  unfold process_csv
  rw [if_neg (by simp), if_neg (by simp), hrun]
  simp only
  rw [if_neg (by norm_num : ¬ ((3 : ℕ) = 0))]
  unfold buildReport
  simp only [htd, hyt]
  have hsort : sortDescBy TagSeries.average
      [{ name := "a", data := [100, 100, 100], average := (100 : ℝ) }] =
      [{ name := "a", data := [100, 100, 100], average := (100 : ℝ) }] := rfl
  rw [hsort]
  rfl

/-- Witness for C10, by the run recorded in `process_csv_testRows_eval`. -/
theorem process_csv_metadata_witness :
    testReport.top_tags_count = min 10 testReport.unique_tags ∧
      1 ≤ testReport.unique_tags ∧
      1 ≤ testReport.processed_rows ∧
      testReport.processed_rows ≤ testReport.total_rows ∧
      testReport.years = [2023, 2024, 2025] :=
  process_csv_metadata true true testRows uZero testReport
    process_csv_testRows_eval

/-- Witness for C8, by the run recorded in `process_csv_testRows_eval`. -/
theorem report_tags_sorted_by_average_witness :
    (∀ t ∈ testReport.tags, t.data.length = 3 ∧
        t.average = round2 (t.data.sum / 3)) ∧
      List.Sorted (fun a b : TagSeries => b.average ≤ a.average)
        testReport.tags ∧
      List.Perm testReport.tags (tagsDataOf ⟨[("a", 3)], 3, 3⟩ uZero) ∧
      ∀ a : ℝ, testReport.tags.filter (fun t => decide (t.average = a)) =
        (tagsDataOf ⟨[("a", 3)], 3, 3⟩ uZero).filter
          (fun t => decide (t.average = a)) :=
  report_tags_sorted_by_average testRows uZero ⟨[("a", 3)], 3, 3⟩ testReport
    (by rfl) process_csv_testRows_eval

/-- Witness for C3: in the test run the year-2023 percentages sum to 100
within tolerance. -/
theorem year_percentages_sum_to_100_witness :
    |(testReport.tags.map (fun t => t.data[0]!)).sum - 100| ≤ 0.1 :=
  year_percentages_sum_to_100 testRows uZero ⟨[("a", 3)], 3, 3⟩ testReport
    (by rfl) process_csv_testRows_eval
    (by
      intro k hk
      have hk1 : k < 1 := hk
      have hk0 : k = 0 := by omega
      subst hk0
      show drawsValid 3 (uZero 0)
      unfold drawsValid uZero
      norm_num)
    0 (by norm_num)
    (by decide)

/-- Witness for C6: the no-data path on an empty row list. -/
theorem get_data_error_paths_witness :
    get_data (Except.ok (process_csv true true [] uZero)) =
      { status := 200, body := Result.error "No valid data found in CSV" } :=
  get_data_error_paths.2.2.1 [] uZero ⟨[], 0, 0⟩ rfl rfl

end StackChart
